import Mathlib

/-!
# Verification of the Fastformer causal-LM architecture (`src/fastformer.py`)

Shallow embedding of the forward computation of the repository's single
source file over the exact rationals `ℚ`.  The floating-point primitives
that have no exact rational counterpart (`exp`, `sqrt`, `gelu`, `log`) are
taken as explicit function parameters of the embedded modules; theorems
that need a property of a primitive (e.g. positivity of `exp`) take it as
a hypothesis, which matches the property of the real function used by the
source.  All tensor computations in the file act pointwise on the batch
axis, so the embedding works with a single batch element: a hidden-state
tensor of shape (seq, hidden) is a function `Fin n → Fin d → ℚ` and the
attention mask is `Fin n → ℚ`.

`nn.Dropout` is modelled by elementwise multiplication with an explicit
realized mask tensor (the realized Bernoulli-over-keep-probability
scaling; the all-ones tensor in evaluation mode).  The realized mask is
part of the module state for one forward call, like the weights.
-/

/-- Dot product of two `d`-vectors (a `nn.Linear(d, 1, bias=False)` applied
to a vector, e.g. `query_att`/`key_att` in the source). -/
def dotQ {d : ℕ} (w x : Fin d → ℚ) : ℚ := ∑ j, w j * x j

/-- `nn.Linear(k, m, bias=False)`: matrix-vector product `W·x`. -/
def linearNoBias {m k : ℕ} (W : Fin m → Fin k → ℚ) (x : Fin k → ℚ) : Fin m → ℚ :=
  fun i => ∑ j, W i j * x j

/-- `nn.Linear(k, m)` with its bias. -/
def linearB {m k : ℕ} (W : Fin m → Fin k → ℚ) (b : Fin m → ℚ) (x : Fin k → ℚ) : Fin m → ℚ :=
  fun i => (∑ j, W i j * x j) + b i

/-- The default `eps` of `nn.LayerNorm` (1e-5). -/
def lnEps : ℚ := 1 / 100000

/-- `nn.LayerNorm(d)` applied to one position's vector: normalize by mean
and (biased) variance over the hidden axis, then elementwise affine
`γ, β`.  `sq` is the square-root primitive. -/
def layerNorm {d : ℕ} (sq : ℚ → ℚ) (γ β : Fin d → ℚ) (x : Fin d → ℚ) : Fin d → ℚ :=
  let μ : ℚ := (∑ j, x j) / (d : ℚ)
  let v : ℚ := (∑ j, (x j - μ) ^ 2) / (d : ℚ)
  fun j => γ j * ((x j - μ) / sq (v + lnEps)) + β j

/-- `torch.cumsum(f, dim=1)` read at position `i`: the prefix sum of `f`
over positions `k ≤ i`. -/
def cumsum {n : ℕ} (f : Fin n → ℚ) (i : Fin n) : ℚ :=
  ∑ k, if k ≤ i then f k else 0

namespace FastSelfAttention

/-- Parameters of `FastSelfAttention.__init__`: the two bias-free `d×d`
projections, the two bias-free scalar attention projections, and the
`attn_norm` LayerNorm affine parameters.  There is no value projection
(`Wvalues` is commented out in the source). -/
structure Params (d : ℕ) where
  Wquery : Fin d → Fin d → ℚ
  query_att : Fin d → ℚ
  Wkeys : Fin d → Fin d → ℚ
  key_att : Fin d → ℚ
  normW : Fin d → ℚ
  normB : Fin d → ℚ

variable {d n : ℕ}

/-- `hidden_states = self.attn_norm(hidden_states)` (line 25). -/
def normed (sq : ℚ → ℚ) (p : Params d) (hidden : Fin n → Fin d → ℚ) :
    Fin n → Fin d → ℚ :=
  fun i => layerNorm sq p.normW p.normB (hidden i)

/-- `query = self.Wquery(hidden_states)` (line 28); also `values = query`. -/
def queryOf (sq : ℚ → ℚ) (p : Params d) (hidden : Fin n → Fin d → ℚ) :
    Fin n → Fin d → ℚ :=
  fun i => linearNoBias p.Wquery (normed sq p hidden i)

/-- `keys = self.Wkeys(hidden_states)` (line 29). -/
def keysOf (sq : ℚ → ℚ) (p : Params d) (hidden : Fin n → Fin d → ℚ) :
    Fin n → Fin d → ℚ :=
  fun i => linearNoBias p.Wkeys (normed sq p hidden i)

/-- `attention_mask = (1.0 - attention_mask) * -10000.0` (line 36), the
additive bias obtained from the {0,1} padding mask. -/
def addMask (mask : Fin n → ℚ) : Fin n → ℚ :=
  fun i => (1 - mask i) * (-10000)

/-- `query_weight = exp(self.query_att(query) / d_model**.5 + attention_mask)`
(lines 40-42): the per-position scalar pooling weight of the first stage. -/
def queryWeight (e sq : ℚ → ℚ) (p : Params d) (hidden : Fin n → Fin d → ℚ)
    (mask : Fin n → ℚ) : Fin n → ℚ :=
  fun i => e (dotQ p.query_att (queryOf sq p hidden i) / sq (d : ℚ) + addMask mask i)

/-- `pooled_query = cumsum(query_weight * query, 1) / cumsum(query_weight, 1)`
(line 43): causal exponentially-weighted cumulative average of the query. -/
def pooledQuery (e sq : ℚ → ℚ) (p : Params d) (hidden : Fin n → Fin d → ℚ)
    (mask : Fin n → ℚ) : Fin n → Fin d → ℚ :=
  fun i j =>
    cumsum (fun k => queryWeight e sq p hidden mask k * queryOf sq p hidden k j) i /
      cumsum (queryWeight e sq p hidden mask) i

/-- `mixed_keys = pooled_query * keys` (line 46). -/
def mixedKeys (e sq : ℚ → ℚ) (p : Params d) (hidden : Fin n → Fin d → ℚ)
    (mask : Fin n → ℚ) : Fin n → Fin d → ℚ :=
  fun i j => pooledQuery e sq p hidden mask i j * keysOf sq p hidden i j

/-- `keys_weight = exp(self.key_att(mixed_keys) / d_model**.5 + attention_mask)`
(lines 49-51): the scalar pooling weight of the second stage. -/
def keysWeight (e sq : ℚ → ℚ) (p : Params d) (hidden : Fin n → Fin d → ℚ)
    (mask : Fin n → ℚ) : Fin n → ℚ :=
  fun i => e (dotQ p.key_att (fun j => mixedKeys e sq p hidden mask i j) / sq (d : ℚ) +
    addMask mask i)

/-- `pooled_keys = cumsum(keys_weight * mixed_keys, 1) / cumsum(keys_weight, 1)`
(line 52). -/
def pooledKeys (e sq : ℚ → ℚ) (p : Params d) (hidden : Fin n → Fin d → ℚ)
    (mask : Fin n → ℚ) : Fin n → Fin d → ℚ :=
  fun i j =>
    cumsum (fun k => keysWeight e sq p hidden mask k * mixedKeys e sq p hidden mask k j) i /
      cumsum (keysWeight e sq p hidden mask) i

/-- `FastSelfAttention.forward` (lines 24-60): the two-stage causal additive
attention, `weighted_values = pooled_keys * values` with `values = query`,
followed by `attn_dropout` (modelled by the realized mask `drop`). -/
def forward (e sq : ℚ → ℚ) (p : Params d) (drop : Fin n → Fin d → ℚ)
    (hidden : Fin n → Fin d → ℚ) (mask : Fin n → ℚ) : Fin n → Fin d → ℚ :=
  fun i j => drop i j * (pooledKeys e sq p hidden mask i j * queryOf sq p hidden i j)

end FastSelfAttention

namespace CausalConvolution

/-- Parameters of `CausalConvolution.__init__`: the `nn.Conv1d(d, d,
groups=groups, kernel_size=kernel_size, padding=0, bias=False)` weight and
the `conv_norm` LayerNorm.  The Conv1d weight has shape
`(d, d / groups, kernel_size)`; it is stored as a total function on `ℕ`
indices, of which only `(< d, < d / groups, < kernel_size)` are read. -/
structure Params (d : ℕ) where
  kernel_size : ℕ
  groups : ℕ
  convW : ℕ → ℕ → ℕ → ℚ
  normW : Fin d → ℚ
  normB : Fin d → ℚ

variable {d n : ℕ}

/-- `mod = self.gelu(self.conv_norm(hidden_states))` (lines 77-82), then
`mod = mod.permute(0, 2, 1)` (line 85): channel-first layout, as a total
function (channel, time) → value, zero outside the valid index range. -/
def preConv (sq gelu : ℚ → ℚ) (p : Params d) (hidden : Fin n → Fin d → ℚ) :
    ℕ → ℕ → ℚ :=
  fun c t =>
    if h : c < d ∧ t < n then
      gelu (layerNorm sq p.normW p.normB (hidden ⟨t, h.2⟩) ⟨c, h.1⟩)
    else 0

/-- `mod = F.pad(mod, pad=(self.kernel_size-1, 0), ...)` (line 88): left-pad
the time axis with `kernel_size - 1` zeros, no right padding. -/
def leftPad (k1 : ℕ) (x : ℕ → ℕ → ℚ) : ℕ → ℕ → ℚ :=
  fun c t => if t < k1 then 0 else x c (t - k1)

/-- `mod = self.convolutional_layer(mod)` (line 89): grouped bias-free 1-D
convolution.  Output channel `c` belongs to group `c / (d / groups)` and
reads the `d / groups` input channels of that group. -/
def conv1d (dpg k : ℕ) (W : ℕ → ℕ → ℕ → ℚ) (x : ℕ → ℕ → ℚ) : ℕ → ℕ → ℚ :=
  fun c t => ∑ m ∈ Finset.range dpg, ∑ s ∈ Finset.range k,
    W c m s * x (c / dpg * dpg + m) (t + s)

/-- `CausalConvolution.forward` (lines 75-96): norm → GELU → permute →
left-pad → grouped conv → permute back → dropout (realized mask `drop`). -/
def forward (sq gelu : ℚ → ℚ) (p : Params d) (drop : Fin n → Fin d → ℚ)
    (hidden : Fin n → Fin d → ℚ) : Fin n → Fin d → ℚ :=
  fun i j =>
    drop i j *
      conv1d (d / p.groups) p.kernel_size p.convW
        (leftPad (p.kernel_size - 1) (preConv sq gelu p hidden)) (j : ℕ) (i : ℕ)

end CausalConvolution

namespace FastformerLayer

/-- Parameters of the boom ("gated feed-forward") block of
`FastformerLayer`: `boom : Linear(d, 4d)`, `unboom : Linear(4d, d)` (both
with bias) and `boom_norm`. -/
structure BoomParams (d : ℕ) where
  boomW : Fin (4 * d) → Fin d → ℚ
  boomB : Fin (4 * d) → ℚ
  unboomW : Fin d → Fin (4 * d) → ℚ
  unboomB : Fin d → ℚ
  normW : Fin d → ℚ
  normB : Fin d → ℚ

variable {d n : ℕ}

/-- `FastformerLayer.__boom` (lines 130-141): norm → expand to `4·d` →
GELU → contract to `d` → dropout (realized mask `drop`). -/
def boomBlock (sq gelu : ℚ → ℚ) (p : BoomParams d) (drop : Fin n → Fin d → ℚ)
    (hidden : Fin n → Fin d → ℚ) : Fin n → Fin d → ℚ :=
  fun i j =>
    drop i j *
      linearB p.unboomW p.unboomB
        (fun u => gelu (linearB p.boomW p.boomB
          (layerNorm sq p.normW p.normB (hidden i)) u)) j

/-- Parameters of one `FastformerLayer` with the realized dropout masks of
one forward call.  `convolve` is the configuration flag tested by
`if self.convolve is True` (line 121). -/
structure Params (d n : ℕ) where
  convolve : Bool
  conv : CausalConvolution.Params d
  convDrop : Fin n → Fin d → ℚ
  attn : FastSelfAttention.Params d
  attnDrop : Fin n → Fin d → ℚ
  boom : BoomParams d
  boomDrop : Fin n → Fin d → ℚ

/-- `FastformerLayer.forward` (lines 118-128): optional causal convolution,
then additive attention, then the boom block, each added residually onto
the running state `mod`. -/
def forward (e sq gelu : ℚ → ℚ) (p : Params d n) (hidden : Fin n → Fin d → ℚ)
    (mask : Fin n → ℚ) : Fin n → Fin d → ℚ :=
  let mod := hidden
  let mod := if p.convolve = true then
      fun i j => mod i j + CausalConvolution.forward sq gelu p.conv p.convDrop mod i j
    else mod
  let mod := fun i j =>
    mod i j + FastSelfAttention.forward e sq p.attn p.attnDrop mod mask i j
  fun i j => mod i j + boomBlock sq gelu p.boom p.boomDrop mod i j

end FastformerLayer

namespace FastformerDecoder

variable {d n : ℕ}

/-- Parameters of `FastformerDecoder.__init__`: the per-layer parameter
bundles (one per `config.num_hidden_layers`), the position-embedding table
(`max_position_embeddings × d`, total on `ℕ` row indices), the stack-level
LayerNorm, and the realized stack-level dropout mask. -/
structure Params (d n : ℕ) where
  layers : List (FastformerLayer.Params d n)
  position_embeddings : ℕ → Fin d → ℚ
  normW : Fin d → ℚ
  normB : Fin d → ℚ
  drop : Fin n → Fin d → ℚ

/-- `FastformerDecoder.forward` (lines 155-175): add position embeddings for
positions `0..n-1`, LayerNorm, dropout, then thread the state through each
decoder layer with the same attention mask. -/
def forward (e sq gelu : ℚ → ℚ) (p : Params d n) (input_embs : Fin n → Fin d → ℚ)
    (mask : Fin n → ℚ) : Fin n → Fin d → ℚ :=
  let embeddings := fun i j => input_embs i j + p.position_embeddings (i : ℕ) j
  let embeddings := fun i => layerNorm sq p.normW p.normB (embeddings i)
  let embeddings := fun i j => p.drop i j * embeddings i j
  p.layers.foldl (fun st lp => FastformerLayer.forward e sq gelu lp st mask) embeddings

end FastformerDecoder

/-- `log(∑ exp)` over the vocabulary axis, the normalizer of softmax. -/
def logSumExp (lg e : ℚ → ℚ) {V : ℕ} (z : Fin V → ℚ) : ℚ := lg (∑ c, e (z c))

/-- `nn.CrossEntropyLoss(label_smoothing = ε)` on `N` flattened rows of `V`
logits: mean over rows of the cross entropy between the smoothed target
distribution `(1-ε)·onehot(y) + ε/V · uniform` and the softmax of the
logits. -/
def crossEntropyLS (lg e : ℚ → ℚ) (ε : ℚ) {N V : ℕ} (z : Fin N → Fin V → ℚ)
    (y : Fin N → Fin V) : ℚ :=
  (∑ i, ∑ c, ((if c = y i then 1 - ε else 0) + ε / (V : ℚ)) *
    (logSumExp lg e (z i) - z i c)) / (N : ℚ)

/-- Python semantics of the expression `self.training()` at line 197 of the
source: `nn.Module.training` is a `bool` attribute, and calling a `bool`
raises `TypeError`, whatever its value. -/
def callBoolAttr (_b : Bool) : Except String Bool :=
  .error "TypeError: bool object is not callable"

namespace FastformerForCausalLM

variable {d n vocab : ℕ}

/-- Parameters of `FastformerForCausalLM` after `__init__`.  The
`word_embedding` table (`vocab × d`, total on `ℕ` row indices) is also the
`proj_logits` weight, reflecting the tying at line 190; `proj_logitsB` is
the independent `proj_logits` bias. -/
structure Params (d n : ℕ) where
  word_embedding : ℕ → Fin d → ℚ
  proj_logitsB : ℕ → ℚ
  decoder : FastformerDecoder.Params d n

/-- The logits of `FastformerForCausalLM.forward` (lines 193-195):
embedding lookup, decoder stack, then the tied affine projection. -/
def logitsOf (e sq gelu : ℚ → ℚ) (p : Params d n) (input_ids : Fin n → ℕ)
    (attention_mask : Fin n → ℚ) : Fin n → Fin vocab → ℚ :=
  let embds := fun i => p.word_embedding (input_ids i)
  let layer_outputs := FastformerDecoder.forward e sq gelu p.decoder embds attention_mask
  fun i v => (∑ j, p.word_embedding (v : ℕ) j * layer_outputs i j) + p.proj_logitsB (v : ℕ)

/-- `FastformerForCausalLM.forward` (lines 192-202).  After computing the
logits the source evaluates `if self.training():`, which calls the boolean
attribute `training`; that call raises, so the loss branches selecting
label smoothing 0.1 (`self.criterion`) or 0 (`self.eval_criterion`) are
never reached. -/
def forward (e sq gelu lg : ℚ → ℚ) (p : Params d n) (training : Bool)
    (input_ids : Fin n → ℕ) (labels : Fin n → Fin vocab)
    (attention_mask : Fin n → ℚ) : Except String (ℚ × (Fin n → Fin vocab → ℚ)) :=
  let logits : Fin n → Fin vocab → ℚ :=
    logitsOf e sq gelu p input_ids attention_mask
  match callBoolAttr training with
  | .ok t =>
    if t then .ok (crossEntropyLS lg e (1 / 10) logits labels, logits)
    else .ok (crossEntropyLS lg e 0 logits labels, logits)
  | .error msg => .error msg

end FastformerForCausalLM

/-! ## Parameter-storage (aliasing) model of the weight tying

`FastformerForCausalLM.__init__` allocates the `word_embedding` weight,
the `proj_logits` weight and the `proj_logits` bias and then executes
`self.proj_logits.weight = self.word_embedding.weight` (line 190), which
rebinds the projection-weight reference to the embedding-weight storage.
Tensors live in a heap of matrix-valued cells; a module field holds a
reference (cell address).  A bias vector is stored in column 0 of its
cell. -/

namespace Tying

/-- A parameter-tensor cell: a matrix as a total function. -/
abbrev Mat := ℕ → ℕ → ℚ

/-- The parameter heap: cell address → tensor. -/
abbrev Heap := ℕ → Mat

/-- Read the tensor a reference points to. -/
def readCell (h : Heap) (r : ℕ) : Mat := h r

/-- In-place update (e.g. an optimizer step) of the tensor at address `r`. -/
def writeCell (h : Heap) (r : ℕ) (M : Mat) : Heap :=
  fun a => if a = r then M else h a

/-- The tensor references held by `FastformerForCausalLM`. -/
structure Refs where
  word_embedding_weight : ℕ
  proj_logits_weight : ℕ
  proj_logits_bias : ℕ

/-- References after the allocations of `__init__` (lines 183-184), before
the tying assignment: three distinct freshly allocated cells. -/
def refsBeforeTying : Refs :=
  { word_embedding_weight := 0, proj_logits_weight := 1, proj_logits_bias := 2 }

/-- References after `self.proj_logits.weight = self.word_embedding.weight`
(line 190): the projection-weight reference now points at the
embedding-weight storage; the bias keeps its own cell. -/
def refsInit : Refs :=
  { refsBeforeTying with proj_logits_weight := refsBeforeTying.word_embedding_weight }

/-- `self.proj_logits(x)` at one position, reading weight and bias from the
heap through the references: `x·Wᵀ + b`. -/
def projLogitsApply (d : ℕ) (h : Heap) (r : Refs) (x : Fin d → ℚ) : ℕ → ℚ :=
  fun v => (∑ j : Fin d, readCell h r.proj_logits_weight v (j : ℕ) * x j) +
    readCell h r.proj_logits_bias v 0

end Tying

/-! ## Spec-side reference definitions (for refinement claims)

These two definitions are written from the wording of the specification
(§4.1 steps 1-8 and §4.4), to be compared with the definitions embedded
from the source. -/

/-- The spec's reference algorithm for the causal additive self-attention,
written from §4.1 steps 1-8: normalize; `query = Wq·H`, `keys = Wk·H`,
`values = query`; `bias = (1 - mask) * -10000`; scalar weight
`qw = exp(query_attention_vector(query)/sqrt(d) + bias)`;
`pooled_query[i] = cumsum(qw * query)[i] / cumsum(qw)[i]`;
`mixed_keys = pooled_query * keys`; the same pooling repeated on
`mixed_keys` with the independent scalar projection; output
`pooled_keys * values`, then dropout. -/
def specReferenceAttention (e sq : ℚ → ℚ) {d n : ℕ} (p : FastSelfAttention.Params d)
    (drop : Fin n → Fin d → ℚ) (H : Fin n → Fin d → ℚ) (mask : Fin n → ℚ) :
    Fin n → Fin d → ℚ :=
  let Hn := fun i => layerNorm sq p.normW p.normB (H i)
  let query := fun i => linearNoBias p.Wquery (Hn i)
  let keys := fun i => linearNoBias p.Wkeys (Hn i)
  let values := query
  let bias := fun i => (1 - mask i) * (-10000)
  let qw := fun i => e (dotQ p.query_att (query i) / sq (d : ℚ) + bias i)
  let pooled_query := fun i j => cumsum (fun k => qw k * query k j) i / cumsum qw i
  let mixed_keys := fun i j => pooled_query i j * keys i j
  let kw := fun i => e (dotQ p.key_att (fun j => mixed_keys i j) / sq (d : ℚ) + bias i)
  let pooled_keys := fun i j => cumsum (fun k => kw k * mixed_keys k j) i / cumsum kw i
  fun i j => drop i j * (pooled_keys i j * values i j)

/-- The spec's residual wiring (§4.4): each sub-block receives the running
sum and adds its own output back into it, `state = state + block(state)`. -/
def addBlock {α : Type} [Add α] (block : α → α) (state : α) : α :=
  state + block state

/-! ## List-of-positions interface

Wrappers presenting each sub-block as a transformation of a list of
per-position hidden vectors, used to state shape (sequence-length)
preservation.  `mask` and the dropout masks are indexed by the absolute
position. -/

/-- View a list of per-position vectors as a `Fin`-indexed sequence. -/
def seqFn {d : ℕ} (hs : List (Fin d → ℚ)) : Fin hs.length → Fin d → ℚ :=
  fun i => hs.get i

/-- `FastSelfAttention.forward` on a list of per-position hidden vectors. -/
def FastSelfAttention.forwardList (e sq : ℚ → ℚ) {d : ℕ} (p : FastSelfAttention.Params d)
    (drop : ℕ → Fin d → ℚ) (hs : List (Fin d → ℚ)) (mask : ℕ → ℚ) :
    List (Fin d → ℚ) :=
  List.ofFn (FastSelfAttention.forward e sq p (fun i => drop (i : ℕ)) (seqFn hs)
    (fun i => mask (i : ℕ)))

/-- `CausalConvolution.forward` on a list of per-position hidden vectors. -/
def CausalConvolution.forwardList (sq gelu : ℚ → ℚ) {d : ℕ} (p : CausalConvolution.Params d)
    (drop : ℕ → Fin d → ℚ) (hs : List (Fin d → ℚ)) : List (Fin d → ℚ) :=
  List.ofFn (CausalConvolution.forward sq gelu p (fun i => drop (i : ℕ)) (seqFn hs))

/-- `FastformerLayer.__boom` on a list of per-position hidden vectors. -/
def FastformerLayer.boomBlockList (sq gelu : ℚ → ℚ) {d : ℕ} (p : FastformerLayer.BoomParams d)
    (drop : ℕ → Fin d → ℚ) (hs : List (Fin d → ℚ)) : List (Fin d → ℚ) :=
  List.ofFn (FastformerLayer.boomBlock sq gelu p (fun i => drop (i : ℕ)) (seqFn hs))

/-! ## Concrete instances (used by witnesses) -/

/-- Concrete attention parameters at `hidden_size = 1`. -/
def attnPEx : FastSelfAttention.Params 1 :=
  ⟨fun _ _ => 1, fun _ => 1, fun _ _ => 1, fun _ => 1, fun _ => 1, fun _ => 0⟩

/-- Concrete convolution parameters at `hidden_size = 1`, `kernel_size = 3`,
`groups = 1`. -/
def convPEx : CausalConvolution.Params 1 :=
  { kernel_size := 3, groups := 1, convW := fun _ _ _ => 1,
    normW := fun _ => 1, normB := fun _ => 0 }

/-- A length-2 hidden-state sequence at `hidden_size = 1`, value 5 at
position 1. -/
def hSeqA : Fin 2 → Fin 1 → ℚ := fun i _ => if (i : ℕ) = 0 then 0 else 5

/-- A length-2 hidden-state sequence agreeing with `hSeqA` at position 0
only. -/
def hSeqB : Fin 2 → Fin 1 → ℚ := fun _ _ => 0

/-- The all-ones (no padding) mask of length 2. -/
def maskOnes : Fin 2 → ℚ := fun _ => 1

/-- The all-ones dropout mask (evaluation mode). -/
def dropOnes : Fin 2 → Fin 1 → ℚ := fun _ _ => 1

/-- Position 0 of a length-2 sequence. -/
def pos0 : Fin 2 := ⟨0, by norm_num⟩

/-! ## Helper lemmas about `cumsum` -/

/-- `cumsum` at position `i` only reads its argument at positions `k ≤ i`. -/
theorem cumsum_congr {n : ℕ} {f g : Fin n → ℚ} {i : Fin n}
    (h : ∀ k, k ≤ i → f k = g k) : cumsum f i = cumsum g i := by
  unfold cumsum
  refine Finset.sum_congr rfl fun k _ => ?_
  by_cases hk : k ≤ i
  · simp only [if_pos hk, h k hk]
  · simp only [if_neg hk]

/-- At position 0 the prefix sum is the single term at position 0. -/
theorem cumsum_at_zero {n : ℕ} (f : Fin n → ℚ) (hn : 0 < n) :
    cumsum f ⟨0, hn⟩ = f ⟨0, hn⟩ := by
  unfold cumsum
  rw [Finset.sum_eq_single_of_mem ⟨0, hn⟩ (Finset.mem_univ _)]
  · simp
  · intro b _ hb
    have hb0 : ¬ b ≤ (⟨0, hn⟩ : Fin n) :=
      fun hle => hb (Fin.ext (Nat.le_zero.mp hle))
    simp only [if_neg hb0]

/-- A prefix sum of strictly positive terms is strictly positive. -/
theorem cumsum_pos {n : ℕ} {f : Fin n → ℚ} (hf : ∀ k, 0 < f k) (i : Fin n) :
    0 < cumsum f i := by
  unfold cumsum
  refine Finset.sum_pos' (fun k _ => ?_) ⟨i, Finset.mem_univ i, ?_⟩
  · by_cases hk : k ≤ i
    · simp only [if_pos hk]; exact (hf k).le
    · simp only [if_neg hk]; exact le_rfl
  · simp only [if_pos (le_refl i)]; exact hf i

/-! ## Claim theorems -/

/-- C2: `FastSelfAttention.forward` computes exactly the spec's reference
algorithm: pre-normalization; bias-free `query`/`keys` projections with
`values = query`; additive mask bias `(1 - mask) * -10000`; exponentiated
scaled scalar weights; the two cumulative-ratio pooling stages with
independent scalar projections; output `pooled_keys * values` followed by
dropout. -/
theorem fastSelfAttention_matches_spec (e sq : ℚ → ℚ) {d n : ℕ}
    (p : FastSelfAttention.Params d) (drop : Fin n → Fin d → ℚ)
    (hidden : Fin n → Fin d → ℚ) (mask : Fin n → ℚ) :
    FastSelfAttention.forward e sq p drop hidden mask =
      specReferenceAttention e sq p drop hidden mask := rfl

/-- C3 (code bug): `FastformerForCausalLM.forward` never reaches the loss
computation — evaluating `if self.training():` calls the boolean attribute
`training` and raises `TypeError` for every input and for both modes, so
no label-smoothed loss is selected or returned. -/
theorem fastformerForCausalLM_forward_raises (e sq gelu lg : ℚ → ℚ) {d n vocab : ℕ}
    (p : FastformerForCausalLM.Params d n) (training : Bool) (input_ids : Fin n → ℕ)
    (labels : Fin n → Fin vocab) (mask : Fin n → ℚ) :
    FastformerForCausalLM.forward e sq gelu lg p training input_ids labels mask =
      Except.error "TypeError: bool object is not callable" := rfl

/-- C4: after `__init__`, the projection-weight reference and the
embedding-weight reference are the identical storage address; an in-place
update through either reference is observed through the other; and the
logits projection applied after such an update reads the updated matrix
(never a stale copy), while the bias cell is untouched. -/
theorem weight_tying_aliasing :
    Tying.refsInit.proj_logits_weight = Tying.refsInit.word_embedding_weight ∧
    (∀ (h : Tying.Heap) (M : Tying.Mat),
      Tying.readCell (Tying.writeCell h Tying.refsInit.word_embedding_weight M)
        Tying.refsInit.proj_logits_weight = M ∧
      Tying.readCell (Tying.writeCell h Tying.refsInit.proj_logits_weight M)
        Tying.refsInit.word_embedding_weight = M) ∧
    (∀ (d : ℕ) (h : Tying.Heap) (M : Tying.Mat) (x : Fin d → ℚ) (v : ℕ),
      Tying.projLogitsApply d (Tying.writeCell h Tying.refsInit.word_embedding_weight M)
        Tying.refsInit x v =
        (∑ j : Fin d, M v (j : ℕ) * x j) + h Tying.refsInit.proj_logits_bias v 0) :=
  ⟨rfl, fun _ _ => ⟨rfl, rfl⟩, fun _ _ _ _ _ => rfl⟩

/-- C9: the tied output projection is affine, not purely linear — through
the initialized references it reads the current embedding matrix `E` and
adds a bias read from a cell distinct from the embedding storage:
`logits v = Σ_j E[v][j] · h[j] + b[v]`. -/
theorem proj_logits_affine_tied :
    (∀ (d : ℕ) (h : Tying.Heap) (x : Fin d → ℚ) (v : ℕ),
      Tying.projLogitsApply d h Tying.refsInit x v =
        (∑ j : Fin d,
          Tying.readCell h Tying.refsInit.word_embedding_weight v (j : ℕ) * x j) +
          Tying.readCell h Tying.refsInit.proj_logits_bias v 0) ∧
    Tying.refsInit.proj_logits_bias ≠ Tying.refsInit.word_embedding_weight :=
  ⟨fun _ _ _ _ => rfl, by decide⟩

/-- C6: `FastformerLayer.forward` is exactly the residual composition
`state = state + block(state)` applied, in order, to the optional causal
convolution (skipped entirely when `convolve` is not `true`), then the
additive self-attention, then the boom feed-forward block. -/
theorem fastformerLayer_composition (e sq gelu : ℚ → ℚ) {d n : ℕ}
    (p : FastformerLayer.Params d n) (hidden : Fin n → Fin d → ℚ) (mask : Fin n → ℚ) :
    FastformerLayer.forward e sq gelu p hidden mask =
      addBlock (FastformerLayer.boomBlock sq gelu p.boom p.boomDrop)
        (addBlock (fun s => FastSelfAttention.forward e sq p.attn p.attnDrop s mask)
          (if p.convolve = true then
            addBlock (CausalConvolution.forward sq gelu p.conv p.convDrop) hidden
          else hidden)) := rfl

/-- C8: the list-of-positions wrappers of the additive self-attention, the
causal convolution and the boom feed-forward block each return a sequence
of exactly the input length (each per-position vector staying in
`Fin d → ℚ`, with the boom block expanding to `4·d` internally via
`linearB p.boomW : … → Fin (4*d) → ℚ` and contracting back). -/
theorem shape_preservation :
    (∀ (e sq : ℚ → ℚ) (d : ℕ) (p : FastSelfAttention.Params d) (drop : ℕ → Fin d → ℚ)
      (hs : List (Fin d → ℚ)) (mask : ℕ → ℚ),
      (FastSelfAttention.forwardList e sq p drop hs mask).length = hs.length) ∧
    (∀ (sq gelu : ℚ → ℚ) (d : ℕ) (p : CausalConvolution.Params d) (drop : ℕ → Fin d → ℚ)
      (hs : List (Fin d → ℚ)),
      (CausalConvolution.forwardList sq gelu p drop hs).length = hs.length) ∧
    (∀ (sq gelu : ℚ → ℚ) (d : ℕ) (p : FastformerLayer.BoomParams d) (drop : ℕ → Fin d → ℚ)
      (hs : List (Fin d → ℚ)),
      (FastformerLayer.boomBlockList sq gelu p drop hs).length = hs.length) :=
  ⟨fun _ _ _ _ _ hs _ => by simp [FastSelfAttention.forwardList],
   fun _ _ _ _ _ hs => by simp [CausalConvolution.forwardList],
   fun _ _ _ _ _ hs => by simp [FastformerLayer.boomBlockList]⟩

/-- C7: in both cumulative-pooling stages of `FastSelfAttention.forward`
the divisor `cumsum(exp(…))` is strictly positive at every position
(including position 0, where the sum is the single term at 0), for every
input and mask, because `exp` is strictly positive. -/
theorem fastSelfAttention_divisors_pos (e sq : ℚ → ℚ) {d n : ℕ}
    (p : FastSelfAttention.Params d) (hidden : Fin n → Fin d → ℚ) (mask : Fin n → ℚ)
    (hexp : ∀ x, 0 < e x) (i : Fin n) :
    0 < cumsum (FastSelfAttention.queryWeight e sq p hidden mask) i ∧
    0 < cumsum (FastSelfAttention.keysWeight e sq p hidden mask) i :=
  ⟨cumsum_pos (fun _ => hexp _) i, cumsum_pos (fun _ => hexp _) i⟩

/-- Witness for C7 at a concrete input (`d = 1`, `n = 2`, all-ones mask,
`exp` instantiated with a concrete strictly positive function). -/
theorem fastSelfAttention_divisors_pos_witness :
    0 < cumsum (FastSelfAttention.queryWeight (fun _ => 1) id attnPEx hSeqA maskOnes) pos0 ∧
    0 < cumsum (FastSelfAttention.keysWeight (fun _ => 1) id attnPEx hSeqA maskOnes) pos0 :=
  fastSelfAttention_divisors_pos (fun _ => 1) id attnPEx hSeqA maskOnes
    (fun _ => one_pos) pos0

/-- C10: at position 0 the cumulative weighted average is the identity:
`pooled_query[0] = query[0]` and `pooled_keys[0] = mixed_keys[0]` for every
input and every mask value, because the single-term weight cancels in the
ratio. -/
theorem pooled_identity_at_zero (e sq : ℚ → ℚ) {d n : ℕ}
    (p : FastSelfAttention.Params d) (hidden : Fin n → Fin d → ℚ) (mask : Fin n → ℚ)
    (hexp : ∀ x, e x ≠ 0) (hn : 0 < n) :
    (∀ j, FastSelfAttention.pooledQuery e sq p hidden mask ⟨0, hn⟩ j =
      FastSelfAttention.queryOf sq p hidden ⟨0, hn⟩ j) ∧
    (∀ j, FastSelfAttention.pooledKeys e sq p hidden mask ⟨0, hn⟩ j =
      FastSelfAttention.mixedKeys e sq p hidden mask ⟨0, hn⟩ j) := by
  constructor
  · intro j
    unfold FastSelfAttention.pooledQuery
    rw [cumsum_at_zero, cumsum_at_zero]
    exact mul_div_cancel_left₀ _ (hexp _)
  · intro j
    unfold FastSelfAttention.pooledKeys
    rw [cumsum_at_zero, cumsum_at_zero]
    exact mul_div_cancel_left₀ _ (hexp _)

/-- Witness for C10 at a concrete input (`d = 1`, `n = 2`, component 0). -/
theorem pooled_identity_at_zero_witness :
    FastSelfAttention.pooledQuery (fun _ => 1) id attnPEx hSeqA maskOnes pos0 0 =
      FastSelfAttention.queryOf id attnPEx hSeqA pos0 0 ∧
    FastSelfAttention.pooledKeys (fun _ => 1) id attnPEx hSeqA maskOnes pos0 0 =
      FastSelfAttention.mixedKeys (fun _ => 1) id attnPEx hSeqA maskOnes pos0 0 :=
  ⟨(pooled_identity_at_zero (fun _ => 1) id attnPEx hSeqA maskOnes
      (fun _ => one_ne_zero) (by norm_num)).1 0,
   (pooled_identity_at_zero (fun _ => 1) id attnPEx hSeqA maskOnes
      (fun _ => one_ne_zero) (by norm_num)).2 0⟩

/-- C1: causality of the additive self-attention.  If two (hidden-state,
mask) inputs agree at every position `k ≤ i` (in particular if they differ
only at positions `j > i`), then `FastSelfAttention.forward` produces the
same output at position `i`. -/
theorem fastSelfAttention_causal (e sq : ℚ → ℚ) {d n : ℕ}
    (p : FastSelfAttention.Params d) (drop : Fin n → Fin d → ℚ)
    (h1 h2 : Fin n → Fin d → ℚ) (m1 m2 : Fin n → ℚ) (i : Fin n)
    (hh : ∀ k, k ≤ i → h1 k = h2 k) (hm : ∀ k, k ≤ i → m1 k = m2 k) :
    FastSelfAttention.forward e sq p drop h1 m1 i =
      FastSelfAttention.forward e sq p drop h2 m2 i := by
  have hq : ∀ k, k ≤ i →
      FastSelfAttention.queryOf sq p h1 k = FastSelfAttention.queryOf sq p h2 k := by
    intro k hk
    unfold FastSelfAttention.queryOf FastSelfAttention.normed
    rw [hh k hk]
  have hks : ∀ k, k ≤ i →
      FastSelfAttention.keysOf sq p h1 k = FastSelfAttention.keysOf sq p h2 k := by
    intro k hk
    unfold FastSelfAttention.keysOf FastSelfAttention.normed
    rw [hh k hk]
  have hmask : ∀ k, k ≤ i →
      FastSelfAttention.addMask m1 k = FastSelfAttention.addMask m2 k := by
    intro k hk
    unfold FastSelfAttention.addMask
    rw [hm k hk]
  have hqw : ∀ k, k ≤ i → FastSelfAttention.queryWeight e sq p h1 m1 k =
      FastSelfAttention.queryWeight e sq p h2 m2 k := by
    intro k hk
    unfold FastSelfAttention.queryWeight
    rw [hq k hk, hmask k hk]
  have hpq : ∀ k, k ≤ i → FastSelfAttention.pooledQuery e sq p h1 m1 k =
      FastSelfAttention.pooledQuery e sq p h2 m2 k := by
    intro k hk
    funext j
    unfold FastSelfAttention.pooledQuery
    have hnum : cumsum (fun l => FastSelfAttention.queryWeight e sq p h1 m1 l *
          FastSelfAttention.queryOf sq p h1 l j) k =
        cumsum (fun l => FastSelfAttention.queryWeight e sq p h2 m2 l *
          FastSelfAttention.queryOf sq p h2 l j) k :=
      cumsum_congr (fun l hl => by rw [hqw l (hl.trans hk), hq l (hl.trans hk)])
    have hden : cumsum (FastSelfAttention.queryWeight e sq p h1 m1) k =
        cumsum (FastSelfAttention.queryWeight e sq p h2 m2) k :=
      cumsum_congr (fun l hl => hqw l (hl.trans hk))
    rw [hnum, hden]
  have hmx : ∀ k, k ≤ i → FastSelfAttention.mixedKeys e sq p h1 m1 k =
      FastSelfAttention.mixedKeys e sq p h2 m2 k := by
    intro k hk
    funext j
    unfold FastSelfAttention.mixedKeys
    rw [hpq k hk, hks k hk]
  have hkw : ∀ k, k ≤ i → FastSelfAttention.keysWeight e sq p h1 m1 k =
      FastSelfAttention.keysWeight e sq p h2 m2 k := by
    intro k hk
    unfold FastSelfAttention.keysWeight
    rw [hmask k hk, hmx k hk]
  have hpk : FastSelfAttention.pooledKeys e sq p h1 m1 i =
      FastSelfAttention.pooledKeys e sq p h2 m2 i := by
    funext j
    unfold FastSelfAttention.pooledKeys
    have hnum : cumsum (fun l => FastSelfAttention.keysWeight e sq p h1 m1 l *
          FastSelfAttention.mixedKeys e sq p h1 m1 l j) i =
        cumsum (fun l => FastSelfAttention.keysWeight e sq p h2 m2 l *
          FastSelfAttention.mixedKeys e sq p h2 m2 l j) i :=
      cumsum_congr (fun l hl => by rw [hkw l hl, hmx l hl])
    have hden : cumsum (FastSelfAttention.keysWeight e sq p h1 m1) i =
        cumsum (FastSelfAttention.keysWeight e sq p h2 m2) i :=
      cumsum_congr (fun l hl => hkw l hl)
    rw [hnum, hden]
  funext j
  unfold FastSelfAttention.forward
  rw [hpk, hq i le_rfl]

/-- Witness for C1: two concrete length-2 inputs that agree at position 0
and differ at position 1 give the same attention output at position 0. -/
theorem fastSelfAttention_causal_witness :
    FastSelfAttention.forward (fun _ => 1) id attnPEx dropOnes hSeqA maskOnes pos0 =
      FastSelfAttention.forward (fun _ => 1) id attnPEx dropOnes hSeqB maskOnes pos0 :=
  fastSelfAttention_causal (fun _ => 1) id attnPEx dropOnes hSeqA hSeqB maskOnes maskOnes
    pos0 (by decide) (fun _ _ => rfl)

/-- C5: causality boundary of `CausalConvolution.forward` at position 0.
Thanks to the left-only zero padding with `kernel_size - 1` zeros, the
output at position 0 depends only on the input at position 0. -/
theorem causalConvolution_causal_at_zero (sq gelu : ℚ → ℚ) {d n : ℕ}
    (p : CausalConvolution.Params d) (drop : Fin n → Fin d → ℚ)
    (h1 h2 : Fin n → Fin d → ℚ) (hn : 0 < n) (h0 : h1 ⟨0, hn⟩ = h2 ⟨0, hn⟩) :
    CausalConvolution.forward sq gelu p drop h1 ⟨0, hn⟩ =
      CausalConvolution.forward sq gelu p drop h2 ⟨0, hn⟩ := by
  have hpre : ∀ c, CausalConvolution.preConv sq gelu p h1 c 0 =
      CausalConvolution.preConv sq gelu p h2 c 0 := by
    intro c
    unfold CausalConvolution.preConv
    by_cases hcd : c < d ∧ 0 < n
    · simp only [dif_pos hcd]
      have hx : h1 ⟨0, hcd.2⟩ = h2 ⟨0, hcd.2⟩ := h0
      rw [hx]
    · simp only [dif_neg hcd]
  funext j
  unfold CausalConvolution.forward
  congr 1
  unfold CausalConvolution.conv1d
  refine Finset.sum_congr rfl fun m _ => ?_
  refine Finset.sum_congr rfl fun s hs => ?_
  congr 1
  unfold CausalConvolution.leftPad
  have h0v : (((⟨0, hn⟩ : Fin n) : ℕ)) = 0 := rfl
  by_cases hlt : ((⟨0, hn⟩ : Fin n) : ℕ) + s < p.kernel_size - 1
  · simp only [if_pos hlt]
  · simp only [if_neg hlt]
    have hsk : s < p.kernel_size := Finset.mem_range.mp hs
    rw [h0v] at hlt
    have hidx : 0 + s - (p.kernel_size - 1) = 0 := by omega
    rw [hidx]
    exact hpre _

/-- Witness for C5: two concrete length-2 inputs that agree at position 0
and differ at position 1 give the same convolution output at position 0
(kernel size 3). -/
theorem causalConvolution_causal_at_zero_witness :
    CausalConvolution.forward id id convPEx dropOnes hSeqA pos0 =
      CausalConvolution.forward id id convPEx dropOnes hSeqB pos0 :=
  causalConvolution_causal_at_zero id id convPEx dropOnes hSeqA hSeqB (by norm_num) rfl
